import Mathlib

/-!
# Verification of the prompt-optimizer Session & Orchestration Engine

Shallow embedding of the engine of the `prompt-optimizer` repository:

* `src/app/api/gemini/route.ts` — suggestion sanitizer, retrying invoker,
  response parser, request validation, clarify handling;
* `src/app/components/PromptOptimizer.tsx` — the debounced session
  auto-save/eviction effect and the optimize/clarify/refine handlers;
* `src/unnamed/part_000` — the legacy component revision whose debounced
  saving effect performs the byte-equality skip;
* `src/app/utils/modelConfig.ts` — the supported-model set.

Machine-level JavaScript behaviour that the engine relies on (the
`JSON.parse` grammar, regex replacements, `trim`, string falsiness) is
modelled explicitly below.  Character strings are handled as `List Char`
internally, with `String` at the API boundary; JavaScript's UTF-16 code
units are modelled as characters (no claim below depends on astral-plane
code points) and JSON numeric literals are kept as their source text since
no claim inspects numeric values.
-/

namespace PromptOptimizer

/-- JavaScript values produced by `JSON.parse`: the dynamic result shape of
the model's raw responses (`route.ts` treats these duck-typed). -/
inductive Json where
  | null : Json
  | bool : Bool → Json
  | num : String → Json
  | str : String → Json
  | arr : List Json → Json
  | obj : List (String × Json) → Json

/-- Whitespace skipped by the `JSON.parse` grammar (RFC 8259 `ws`). -/
def jsonWsChar (c : Char) : Bool :=
  c == ' ' || c == '\t' || c == '\n' || c == '\r'

/-- Whitespace matched by JavaScript's regex `\s` and by `String.trim`
(common code points; exotic Unicode spaces are not needed by any claim). -/
def jsWsChar (c : Char) : Bool :=
  c == ' ' || c == '\t' || c == '\n' || c == '\r'
    || c == '\x0b' || c == '\x0c' || c == ' '

/-- `String.prototype.trim` on character lists. -/
def jsTrimChars (cs : List Char) : List Char :=
  ((cs.dropWhile jsWsChar).reverse.dropWhile jsWsChar).reverse

/-- `String.prototype.trim`. -/
def jsTrim (s : String) : String :=
  String.mk (jsTrimChars s.data)

/-- Decode a hexadecimal digit. -/
def hexDigitVal (c : Char) : Option Nat :=
  if '0' ≤ c ∧ c ≤ '9' then some (c.toNat - '0'.toNat)
  else if 'a' ≤ c ∧ c ≤ 'f' then some (c.toNat - 'a'.toNat + 10)
  else if 'A' ≤ c ∧ c ≤ 'F' then some (c.toNat - 'A'.toNat + 10)
  else none

/-- Body of a JSON string literal (after the opening quote): standard
escapes and the `\uXXXX` form; unescaped control characters are a syntax
error, exactly as in `JSON.parse`.  Surrogate pairs are not recombined
(no claim depends on astral characters). -/
def parseStringBody : Nat → List Char → Option (List Char × List Char)
  | 0, _ => none
  | _, [] => none
  | fuel + 1, c :: rest =>
    if c = '"' then some ([], rest)
    else if c = '\\' then
      match rest with
      | [] => none
      | e :: rest' =>
        let decoded : Option (Char × List Char) :=
          if e = '"' then some ('"', rest')
          else if e = '\\' then some ('\\', rest')
          else if e = '/' then some ('/', rest')
          else if e = 'b' then some ('\x08', rest')
          else if e = 'f' then some ('\x0c', rest')
          else if e = 'n' then some ('\n', rest')
          else if e = 'r' then some ('\r', rest')
          else if e = 't' then some ('\t', rest')
          else if e = 'u' then
            match rest' with
            | h1 :: h2 :: h3 :: h4 :: tl =>
              match hexDigitVal h1, hexDigitVal h2, hexDigitVal h3, hexDigitVal h4 with
              | some a, some b, some c3, some d =>
                let n := ((a * 16 + b) * 16 + c3) * 16 + d
                some (Char.ofNat n, tl)
              | _, _, _, _ => none
            | _ => none
          else none
        match decoded with
        | some (ch, tl) =>
          match parseStringBody fuel tl with
          | some (s, r) => some (ch :: s, r)
          | none => none
        | none => none
    else if c.toNat < 0x20 then none
    else
      match parseStringBody fuel rest with
      | some (s, r) => some (c :: s, r)
      | none => none

/-- JSON numeric literal: `-? int frac? exp?`; the raw literal text is kept. -/
def parseNumChars (cs : List Char) : Option (List Char × List Char) :=
  let (neg, cs1) := match cs with
    | '-' :: tl => ([('-' : Char)], tl)
    | _ => ([], cs)
  match cs1 with
  | [] => none
  | d :: _ =>
    if ¬ d.isDigit then none
    else
      let intPart := cs1.takeWhile Char.isDigit
      let rest1 := cs1.dropWhile Char.isDigit
      -- a leading zero must stand alone in the integer part
      if intPart.length > 1 ∧ intPart.headI = '0' then none
      else
        let (fracPart, rest2) : List Char × List Char :=
          match rest1 with
          | '.' :: tl =>
            let ds := tl.takeWhile Char.isDigit
            if ds = [] then ([], '.' :: tl) else ('.' :: ds, tl.dropWhile Char.isDigit)
          | _ => ([], rest1)
        -- a bare '.' with no digits is a syntax error
        match rest2 with
        | '.' :: _ => none
        | _ =>
          let expRes : Option (List Char × List Char) :=
            match rest2 with
            | e :: tl =>
              if e = 'e' ∨ e = 'E' then
                let (sgn, tl2) : List Char × List Char := match tl with
                  | '+' :: t2 => (['+'], t2)
                  | '-' :: t2 => (['-'], t2)
                  | _ => ([], tl)
                let ds := tl2.takeWhile Char.isDigit
                if ds = [] then none
                else some (e :: (sgn ++ ds), tl2.dropWhile Char.isDigit)
              else some ([], rest2)
            | [] => some ([], [])
          match expRes with
          | none => none
          | some (ep, r) => some (neg ++ intPart ++ fracPart ++ ep, r)

mutual

/-- One JSON value (leading whitespace allowed), recursive descent with fuel;
the fuel is sized by the caller so that it never runs out on real input. -/
def parseValue : Nat → List Char → Option (Json × List Char)
  | 0, _ => none
  | fuel + 1, cs =>
    let cs := cs.dropWhile jsonWsChar
    match cs with
    | [] => none
    | c :: rest =>
      if c = 'n' then
        if ['u', 'l', 'l'].isPrefixOf rest then some (.null, rest.drop 3) else none
      else if c = 't' then
        if ['r', 'u', 'e'].isPrefixOf rest then some (.bool true, rest.drop 3) else none
      else if c = 'f' then
        if ['a', 'l', 's', 'e'].isPrefixOf rest then some (.bool false, rest.drop 4) else none
      else if c = '"' then
        match parseStringBody (rest.length + 1) rest with
        | some (s, r) => some (.str (String.mk s), r)
        | none => none
      else if c = '[' then
        let rest' := rest.dropWhile jsonWsChar
        match rest' with
        | ']' :: r => some (.arr [], r)
        | _ =>
          match parseArrItems fuel rest' with
          | some (xs, r) => some (.arr xs, r)
          | none => none
      else if c = '{' then
        let rest' := rest.dropWhile jsonWsChar
        match rest' with
        | '}' :: r => some (.obj [], r)
        | _ =>
          match parseObjFields fuel rest' with
          | some (fs, r) => some (.obj fs, r)
          | none => none
      else if c = '-' ∨ c.isDigit then
        match parseNumChars (c :: rest) with
        | some (lit, r) => some (.num (String.mk lit), r)
        | none => none
      else none

/-- Comma-separated array items up to the closing `]`. -/
def parseArrItems : Nat → List Char → Option (List Json × List Char)
  | 0, _ => none
  | fuel + 1, cs =>
    match parseValue fuel cs with
    | none => none
    | some (v, rest) =>
      match rest.dropWhile jsonWsChar with
      | ',' :: tl =>
        match parseArrItems fuel tl with
        | some (xs, r) => some (v :: xs, r)
        | none => none
      | ']' :: tl => some ([v], tl)
      | _ => none

/-- Comma-separated `"key": value` fields up to the closing `}`. -/
def parseObjFields : Nat → List Char → Option (List (String × Json) × List Char)
  | 0, _ => none
  | fuel + 1, cs =>
    match cs.dropWhile jsonWsChar with
    | '"' :: rest =>
      match parseStringBody (rest.length + 1) rest with
      | none => none
      | some (k, rest1) =>
        match rest1.dropWhile jsonWsChar with
        | ':' :: rest2 =>
          match parseValue fuel rest2 with
          | none => none
          | some (v, rest3) =>
            match rest3.dropWhile jsonWsChar with
            | ',' :: tl =>
              match parseObjFields fuel tl with
              | some (fs, r) => some ((String.mk k, v) :: fs, r)
              | none => none
            | '}' :: tl => some ([(String.mk k, v)], tl)
            | _ => none
        | _ => none
    | _ => none

end

/-- `JSON.parse(s)` as a partial function: `none` models a thrown
`SyntaxError`.  The whole input must be consumed up to trailing whitespace. -/
def jsonParse (s : String) : Option Json :=
  match parseValue (2 * s.data.length + 4) s.data with
  | some (v, rest) => if rest.dropWhile jsonWsChar = [] then some v else none
  | none => none

/-- Property access `v.key` on a parsed value: `some` when `v` is an object
with that key (with the later of duplicate keys winning, as in JS), `none`
(i.e. `undefined`) otherwise. -/
def getField (v : Json) (key : String) : Option Json :=
  match v with
  | .obj fields => (fields.reverse.find? (fun f => f.1 = key)).map (·.2)
  | _ => none

/-- JavaScript truthiness of a parsed value (`undefined` handled by callers):
`null`, `false`, `0`, `NaN` and `""` are falsy.  A numeric literal is zero
exactly when its mantissa has no nonzero digit. -/
def jsTruthy : Json → Bool
  | .null => false
  | .bool b => b
  | .num raw =>
    let mantissa := raw.data.takeWhile (fun c => c ≠ 'e' ∧ c ≠ 'E')
    decide (∃ c ∈ mantissa, c.isDigit ∧ c ≠ '0')
  | .str s => s ≠ ""
  | .arr _ => true
  | .obj _ => true

-- sanity checks for the JSON model (concrete evaluation)

/-! ## Response Parser (`parseResponse`, route.ts lines 422-450) -/

/-- The three-character code fence marker. -/
def fenceMark : List Char := "```".data

/-- `text.replace(/^```json\s*/i, "")`: strip a leading language-tagged fence
marker together with the following whitespace run. -/
def fenceJsonStrip (cs : List Char) : List Char :=
  if fenceMark.isPrefixOf cs then
    match cs.drop 3 with
    | c1 :: c2 :: c3 :: c4 :: rest =>
      if [c1.toLower, c2.toLower, c3.toLower, c4.toLower] = "json".data
      then rest.dropWhile jsWsChar else cs
    | _ => cs
  else cs

/-- `text.replace(/^```/, "")`. -/
def fenceOpenStrip (cs : List Char) : List Char :=
  if fenceMark.isPrefixOf cs then cs.drop 3 else cs

/-- `text.replace(/```$/, "")`. -/
def fenceCloseStrip (cs : List Char) : List Char :=
  if fenceMark.isSuffixOf cs then cs.take (cs.length - 3) else cs

/-- The fence-stripping pipeline of `parseResponse` (route.ts lines 433-437):
strip a leading (optionally `json`-tagged) fence, a trailing fence, then trim. -/
def stripFenced (s : String) : String :=
  String.mk (jsTrimChars (fenceCloseStrip (fenceOpenStrip (fenceJsonStrip s.data))))

/-- The fallback optimizedPrompt record of `parseResponse` for empty input. -/
def noResponseFallback : Json :=
  .obj [("optimizedPrompt", .str ""),
        ("explanations", .arr [.str "No response text provided."])]

/-- The diagnostic note `parseResponse` attaches when structured parsing fails. -/
def unparsedNote : String := "Unable to parse structured response; using raw output."

/-- `parseResponse(text)` (route.ts lines 422-450): direct `JSON.parse`, then
fence-stripped `JSON.parse`, then a verbatim fallback carrying a diagnostic
note.  A successful decode is returned as-is (the TS `as ApiResponseSuccess`
cast checks nothing). -/
def parseResponse (text : Option String) : Json :=
  match text with
  | none => noResponseFallback
  | some t =>
    if t = "" then noResponseFallback
    else
      match jsonParse t with
      | some v => v
      | none =>
        let stripped := stripFenced t
        match jsonParse stripped with
        | some v => v
        | none =>
          .obj [("optimizedPrompt", .str (if stripped = "" then t else stripped)),
                ("explanations", .arr [.str unparsedNote])]

/-! ## Suggestion Sanitizer (`sanitizeSuggestions`, route.ts lines 30-53) -/

/-- `t.replace(/^"+|"+$/g, "")`: remove a leading and a trailing run of
double quotes. -/
def stripQuoteRuns (cs : List Char) : List Char :=
  let a := cs.dropWhile (· = '"')
  (a.reverse.dropWhile (· = '"')).reverse

/-- The imperative-boilerplate alternatives of
`/^\s*(ask the user:|ask:|question:|prompt:)/i`, in alternation order. -/
def askLeads : List (List Char) :=
  ["ask the user:".data, "ask:".data, "question:".data, "prompt:".data]

/-- `t.replace(/^\s*(ask the user:|ask:|question:|prompt:)/i, "")`: when one
of the alternatives follows the leading whitespace, drop both; otherwise the
string (including its leading whitespace) is unchanged. -/
def stripAskLead (cs : List Char) : List Char :=
  let rest := cs.dropWhile jsWsChar
  let low := rest.map Char.toLower
  match askLeads.find? (fun p => p.isPrefixOf low) with
  | some p => rest.drop p.length
  | none => cs

/-- `t.replace(/\s+/g, " ")`: collapse every whitespace run to one space
(`prevWs` tracks whether the previous character belonged to a run). -/
def collapseWsGo (prevWs : Bool) : List Char → List Char
  | [] => []
  | c :: rest =>
    if jsWsChar c then
      if prevWs then collapseWsGo true rest
      else ' ' :: collapseWsGo true rest
    else c :: collapseWsGo false rest

/-- `t.replace(/\s+/g, " ")`. -/
def collapseWs (cs : List Char) : List Char := collapseWsGo false cs

/-- `t.split(" ")`: split at every single space character. -/
def splitOnSpace : List Char → List (List Char)
  | [] => [[]]
  | c :: rest =>
    let r := splitOnSpace rest
    if c = ' ' then [] :: r
    else (c :: r.headI) :: r.tail

/-- `words.join(" ")`. -/
def joinSpace : List (List Char) → List Char
  | [] => []
  | [w] => w
  | w :: rest => w ++ ' ' :: joinSpace rest

/-- The per-candidate cleanup of `sanitizeSuggestions` (route.ts lines 36-45):
trim, strip quote runs, strip imperative-boilerplate, trim; `none` when the
result is empty; otherwise collapse whitespace and cap at 12 words. -/
def cleanCandidate (s : String) : Option String :=
  let t1 := jsTrimChars s.data
  let t2 := stripQuoteRuns t1
  let t3 := jsTrimChars (stripAskLead t2)
  if t3 = [] then none
  else
    let t4 := collapseWs t3
    let words := splitOnSpace t4
    let t5 := if words.length > 12 then joinSpace (words.take 12) else t4
    some (String.mk t5)

/-- `s.toLowerCase()` (ASCII-adequate, as used for the de-dup key). -/
def lowerKey (t : String) : String := String.mk (t.data.map Char.toLower)

/-- The loop of `sanitizeSuggestions`: `seen` models the `Set` of lowercase
keys, `cleaned` the accepted output; non-string candidates are skipped. -/
def sanitizeGo : List Json → List String → List String → List String
  | [], _, cleaned => cleaned
  | s :: rest, seen, cleaned =>
    match s with
    | .str sv =>
      match cleanCandidate sv with
      | none => sanitizeGo rest seen cleaned
      | some t =>
        if lowerKey t ∈ seen then sanitizeGo rest seen cleaned
        else
          let cleaned' := cleaned ++ [t]
          if cleaned'.length ≥ 3 then cleaned'
          else sanitizeGo rest (lowerKey t :: seen) cleaned'
    | _ => sanitizeGo rest seen cleaned

/-- `sanitizeSuggestions(suggestions)` (route.ts lines 30-53); the argument is
the dynamic value of the `suggestions` field (`none` = `undefined`), and any
non-array input yields `[]`. -/
def sanitizeSuggestions (suggestions : Option Json) : List String :=
  match suggestions with
  | some (.arr xs) => sanitizeGo xs [] []
  | _ => []

/-- The list of successful per-candidate cleanups, in input order. -/
def suggestionCleanups (xs : List Json) : List String :=
  xs.filterMap (fun j => match j with | .str s => cleanCandidate s | _ => none)

/-! ## Retrying Invoker (`generateWithRetry`, route.ts lines 147-192) -/

/-- The dynamic error thrown by the external generation capability:
`status` and `message` may each be absent (`undefined`). -/
structure JsError where
  status : Option Nat
  message : Option String

/-- The structured `ApiError` class of route.ts (message + HTTP status). -/
structure ApiError where
  message : String
  status : Nat
deriving DecidableEq

/-- A successful response of the capability; `text` may be `undefined`. -/
structure GenResponse where
  text : Option String
deriving DecidableEq

/-- `o || d` for JavaScript strings: `undefined` and `""` are falsy. -/
def jsStrOr (o : Option String) (d : String) : String :=
  match o with
  | some s => if s = "" then d else s
  | none => d

/-- The retriable status set `[429, 500, 503]`. -/
def retriableStatuses : List Nat := [429, 500, 503]

/-- `error?.status && retriable.includes(error.status) && attempt < retries`. -/
def shouldRetry (e : JsError) (attempt retries : Nat) : Bool :=
  match e.status with
  | some s => s != 0 && retriableStatuses.contains s && attempt < retries
  | none => false

/-- `error?.status || 500`. -/
def statusOr500 (o : Option Nat) : Nat :=
  match o with
  | some s => if s = 0 then 500 else s
  | none => 500

/-- The retry loop of `generateWithRetry`: `cap n` is the n-th call to the
external capability, `attempt` the loop counter, the second component the
number of calls made.  `fuel` starts at `retries`, so running out of fuel is
exactly the (unreachable for positive `retries`) post-loop throw. -/
def generateWithRetryGo (cap : Nat → Except JsError GenResponse) (retries : Nat) :
    Nat → Nat → Nat → Except ApiError GenResponse × Nat
  | 0, _, calls => (.error ⟨"Model generation failed after multiple retries.", 500⟩, calls)
  | fuel + 1, attempt, calls =>
    match cap attempt with
    | .ok r => (.ok r, calls + 1)
    | .error e =>
      if shouldRetry e attempt retries then
        generateWithRetryGo cap retries fuel (attempt + 1) (calls + 1)
      else
        (.error ⟨jsStrOr e.message "Model generation failed.", statusOr500 e.status⟩,
         calls + 1)

/-- `generateWithRetry(genAI, modelId, contents, config, retries, delay)`:
the backoff sleeps (`delay * attempt` ms) only add latency and are not
modelled; the result and the number of capability calls are. -/
def generateWithRetry (cap : Nat → Except JsError GenResponse) (retries : Nat) :
    Except ApiError GenResponse × Nat :=
  generateWithRetryGo cap retries retries 1 0

/-! ## Orchestrator validation (`POST`, route.ts lines 454-517) and the
supported-model set (`modelConfig.ts` lines 16-44) -/

/-- An entry of `SUPPORTED_MODELS` (`modelConfig.ts`). -/
structure ModelInfo where
  id : String
  name : String
  description : String
  maxTokens : Nat
  outputTokens : Nat
  contextWindow : Nat

/-- `SUPPORTED_MODELS` (`modelConfig.ts` lines 16-44). -/
def SUPPORTED_MODELS : List ModelInfo :=
  [⟨"gemini-1.5-flash", "Gemini 1.5 Flash",
    "Fast and versatile multimodal model for scaling across diverse tasks",
    1048576, 8192, 1048576⟩,
   ⟨"gemini-2.0-flash", "Gemini 2.0 Flash",
    "Next-gen features with superior speed, native tool use, and 1M token context",
    1048576, 8192, 1048576⟩,
   ⟨"gemini-2.5-flash", "Gemini 2.5 Flash",
    "Best price-performance model with thinking capabilities and well-rounded features",
    1048576, 65536, 1048576⟩]

/-- `isValidModel(model)` (route.ts lines 119-123). -/
def isValidModel (model : String) : Bool :=
  (SUPPORTED_MODELS.map (·.id)).contains model

/-- The deserialized request body (`ApiRequestBody`); `none` models an absent
field. -/
structure ApiRequestBody where
  prompt : Option String := none
  model : Option String := none
  apiKey : Option String := none
  previousPrompt : Option String := none
  refinementInstruction : Option String := none
  task : Option String := none
  selectedSuggestion : Option String := none
  previousOptimizedPrompt : Option String := none
  answers : Option (List (String × String)) := none

/-- JavaScript truthiness of an optional string field. -/
def jsTruthyStr (o : Option String) : Bool :=
  match o with
  | some s => s != ""
  | none => false

/-- The 400 message listing the supported model ids. -/
def unsupportedModelMessage : String :=
  "Unsupported model. Please use one of: "
    ++ String.intercalate ", " (SUPPORTED_MODELS.map (·.id))

/-- The trailing model check of the validation block (route.ts lines 509-517):
trim the (possibly defaulted) model id and test membership. -/
def modelCheck (model : String) : Except ApiError String :=
  if isValidModel (jsTrim model) then .ok (jsTrim model)
  else .error ⟨unsupportedModelMessage, 400⟩

/-- The validation block of `POST` (route.ts lines 461-517): destructuring
defaults (`model = "gemini-2.0-flash"`, `task = "optimize"`), the basic
model/apiKey presence check, the per-task requirements, then the
supported-model check.  `.ok` carries the resolved model id. -/
def routeValidate (b : ApiRequestBody) : Except ApiError String :=
  if b.model.getD "gemini-2.0-flash" = "" ∨ jsTruthyStr b.apiKey = false then
    .error ⟨"Missing required fields: model or apiKey", 400⟩
  else if b.task.getD "optimize" = "clarify" then
    if jsTruthyStr b.selectedSuggestion = false then
      .error ⟨"Missing required parameter: 'selectedSuggestion' is required for the clarify task. Please provide a suggestion to clarify.", 400⟩
    else if jsTruthyStr b.prompt = false then
      .error ⟨"Missing required parameter: 'prompt' is required for the clarify task. Please provide the latest user input as 'prompt'.", 400⟩
    else modelCheck (b.model.getD "gemini-2.0-flash")
  else if b.task.getD "optimize" = "refine" then
    if b.answers = none ∨ b.answers = some [] then
      .error ⟨"Missing answers for refine task.", 400⟩
    else modelCheck (b.model.getD "gemini-2.0-flash")
  else
    if jsTruthyStr b.prompt = false
        ∧ (jsTruthyStr b.previousPrompt && jsTruthyStr b.refinementInstruction) = false then
      .error ⟨"Missing required fields: provide 'prompt' OR 'previousPrompt' with 'refinementInstruction'", 400⟩
    else modelCheck (b.model.getD "gemini-2.0-flash")

/-- The validation-failure condition exactly as claim C8 words it: failure
"if and only if" the model identifier is missing or not in the supported
set, the api key is missing, the clarify task lacks `selectedSuggestion` or
`prompt`, the refine task lacks a non-empty `answers` list, or the optimize
task lacks both a `prompt` and a (`previousPrompt`, `refinementInstruction`)
pair. -/
def claimedValidationFailure (b : ApiRequestBody) : Bool :=
  (match b.model with | none => true | some m => !isValidModel m)
  || !jsTruthyStr b.apiKey
  || (b.task.getD "optimize" == "clarify"
      && (!jsTruthyStr b.selectedSuggestion || !jsTruthyStr b.prompt))
  || (b.task.getD "optimize" == "refine"
      && (match b.answers with | none => true | some l => l.isEmpty))
  || (b.task.getD "optimize" == "optimize"
      && !(jsTruthyStr b.prompt
            || (jsTruthyStr b.previousPrompt && jsTruthyStr b.refinementInstruction)))

/-- The validation-failure condition the code actually implements: the
defaulted model id must be non-empty and (after trimming) supported, the api
key present and non-empty, and the per-task payload requirements hold — with
a missing model silently replaced by `"gemini-2.0-flash"` and any
unrecognized task value treated as optimize. -/
def validationFails (b : ApiRequestBody) : Prop :=
  b.model.getD "gemini-2.0-flash" = ""
  ∨ jsTruthyStr b.apiKey = false
  ∨ (b.task.getD "optimize" = "clarify"
      ∧ (jsTruthyStr b.selectedSuggestion = false ∨ jsTruthyStr b.prompt = false))
  ∨ (b.task.getD "optimize" = "refine" ∧ (b.answers = none ∨ b.answers = some []))
  ∨ (b.task.getD "optimize" ≠ "clarify" ∧ b.task.getD "optimize" ≠ "refine"
      ∧ jsTruthyStr b.prompt = false
      ∧ (jsTruthyStr b.previousPrompt && jsTruthyStr b.refinementInstruction) = false)
  ∨ isValidModel (jsTrim (b.model.getD "gemini-2.0-flash")) = false

/-- The request pipeline up to invocation: validation happens before any
model call, so a validation failure yields the 400 error with zero calls to
the capability, and otherwise the Retrying Invoker runs with `retries = 3`.
(Response post-processing is modelled separately by `parseResponse` /
`serverClarifyBody` and does not alter the error classification.) -/
def postOutcome (b : ApiRequestBody) (cap : Nat → Except JsError GenResponse) :
    Except ApiError GenResponse × Nat :=
  match routeValidate b with
  | .error e => (.error e, 0)
  | .ok _ => generateWithRetry cap 3

/-! ## Clarify response handling (`POST`, route.ts lines 604-628) and the
client-side question slice (`handleSuggestionClick`,
PromptOptimizer.tsx lines 499-517) -/

/-- `responseText || "{}"`: the text handed to the direct `JSON.parse`. -/
def effectiveClarifyText (t : Option String) : String :=
  match t with
  | some s => if s = "" then "\x7b\x7d" else s
  | none => "\x7b\x7d"

/-- `(responseText || "").replace(...).replace(...).replace(...).trim()`. -/
def strippedClarifyText (t : Option String) : String :=
  stripFenced (match t with | some s => s | none => "")

/-- The fixed generic fallback questions of the clarify branch. -/
def genericClarifyQuestions : List Json :=
  [.str "What specific outcome do you want?",
   .str "What measurable benefits should be highlighted?"]

/-- `parsed.questions || []` on a decoded value. -/
def questionsOrEmptyList (v : Json) : Json :=
  match getField v "questions" with
  | some q => if jsTruthy q then q else .arr []
  | none => .arr []

/-- The clarify branch of `POST` (route.ts lines 605-628): direct decode,
fence-stripped decode, then the generic-questions fallback; the response
body is `{questions: ...}` in every case and no sanitizer runs on it. -/
def serverClarifyBody (t : Option String) : Json :=
  match jsonParse (effectiveClarifyText t) with
  | some v => .obj [("questions", questionsOrEmptyList v)]
  | none =>
    match jsonParse (strippedClarifyText t) with
    | some v => .obj [("questions", questionsOrEmptyList v)]
    | none => .obj [("questions", .arr genericClarifyQuestions)]

/-- `Array.isArray(data?.questions) ? data.questions.slice(0, 4) : []`
(`handleSuggestionClick`, PromptOptimizer.tsx lines 501-503). -/
def clientQuestionSlice (data : Json) : List Json :=
  match getField data "questions" with
  | some (.arr xs) => xs.take 4
  | _ => []

/-- The question list the engine ends up acting on for a successful clarify
request: the route's clarify response body fed through the client's slice. -/
def engineClarifyQuestions (t : Option String) : List Json :=
  clientQuestionSlice (serverClarifyBody t)

/-! ## Chat messages and `handleOptimize` (PromptOptimizer.tsx lines 364-458) -/

/-- `role` of a `ChatMessage`. -/
inductive Role where
  | user : Role
  | assistant : Role
deriving DecidableEq, BEq

/-- A chat message (`ChatMessage`, PromptOptimizer.tsx lines 48-53). -/
structure ChatMessage where
  role : Role
  content : String
  explanations : Option (List String) := none
  suggestions : Option (List String) := none
deriving DecidableEq

/-- The fields of a successful optimize/refine API response as the client
reads them (each may be absent in the dynamic payload). -/
structure AssistantPayload where
  optimizedPrompt : Option String := none
  explanations : Option (List String) := none
  suggestions : Option (List String) := none

/-- The assistant message the client appends on success
(PromptOptimizer.tsx lines 433-438): `data.optimizedPrompt || ""`,
`data.explanations || []`, `data.suggestions || []`. -/
def assistantMessageOf (d : AssistantPayload) : ChatMessage :=
  { role := .assistant
    content := jsStrOr d.optimizedPrompt ""
    explanations := some (d.explanations.getD [])
    suggestions := some (d.suggestions.getD []) }

/-- The message-list transitions of `handleOptimize` (PromptOptimizer.tsx
lines 383-457): the first component is the optimistic list set before the
request (`currentMessages`, no user message appended in silent mode), the
second the final list — appended assistant message on success, the
pre-request snapshot (`setMessages(messages)`) on any error. -/
def handleOptimizeRun (messages : List ChatMessage) (content : String) (silent : Bool)
    (outcome : Except String AssistantPayload) : List ChatMessage × List ChatMessage :=
  let currentMessages :=
    if silent then messages else messages ++ [{role := .user, content := content}]
  match outcome with
  | .ok d => (currentMessages, currentMessages ++ [assistantMessageOf d])
  | .error _ => (currentMessages, messages)

/-! ## Session Store: the debounced auto-save flush
(PromptOptimizer.tsx lines 268-338) and the legacy debounced saving effect
(src/unnamed/part_000 lines 124-163) -/

/-- A Session Index entry (`Session`, PromptOptimizer.tsx lines 55-59);
`updatedAt` is the `Date.now()` timestamp. -/
structure SessionEntry where
  id : String
  title : String
  updatedAt : Nat
deriving DecidableEq

/-- The persisted engine state: the `chat_sessions` index, the decoded
`chat:<id>` message-log records and the `coaching:<id>` records (kept as
opaque serialized payloads; no claim inspects them). -/
structure StoreState where
  index : List SessionEntry
  chats : List (String × List ChatMessage)
  coaching : List (String × String)
deriving DecidableEq

/-- `localStorage.getItem` over a keyed record list (decoded). -/
def lookupKey {α : Type} (l : List (String × α)) (k : String) : Option α :=
  (l.find? (fun p => p.1 == k)).map (·.2)

/-- `localStorage.setItem`: replace the record in place or append it. -/
def setKey {α : Type} : List (String × α) → String → α → List (String × α)
  | [], k, v => [(k, v)]
  | (k', v') :: rest, k, v =>
    if k' = k then (k, v) :: rest else (k', v') :: setKey rest k v

/-- `localStorage.removeItem`. -/
def removeKey {α : Type} (l : List (String × α)) (k : String) : List (String × α) :=
  l.filter (fun p => p.1 != k)

/-- Stable insertion placing `e` after strictly newer entries and before
entries of equal age: together with `sortByUpdatedDesc` this is the stable
descending sort of `sort((a, b) => b.updatedAt - a.updatedAt)`. -/
def insertDesc (e : SessionEntry) : List SessionEntry → List SessionEntry
  | [] => [e]
  | x :: rest =>
    if x.updatedAt > e.updatedAt then x :: insertDesc e rest else e :: x :: rest

/-- `list.sort((a, b) => b.updatedAt - a.updatedAt)` (stable, descending). -/
def sortByUpdatedDesc : List SessionEntry → List SessionEntry
  | [] => []
  | x :: rest => insertDesc x (sortByUpdatedDesc rest)

/-- `MAX_SESSIONS` (PromptOptimizer.tsx line 308). -/
def MAX_SESSIONS : Nat := 50

/-- The derived session title (PromptOptimizer.tsx lines 280-283):
`generateSessionName` on the first user message's content when that content
is truthy, else `"New Chat"`.  `generateSessionName` (sessionNaming.ts) is
passed in as `genTitle`: no claim depends on the title text itself. -/
def flushTitle (genTitle : String → String) (messages : List ChatMessage) : String :=
  match messages.find? (fun m => m.role == Role.user) with
  | some m => if m.content = "" then "New Chat" else genTitle m.content
  | none => "New Chat"

/-- The updated index before sorting (PromptOptimizer.tsx lines 285-301):
replace the entry for `sid` in place, or prepend a new one. -/
def flushUpdatedIndex (index : List SessionEntry) (sid title : String) (now : Nat) :
    List SessionEntry :=
  match index.findIdx? (fun s => s.id == sid) with
  | some i => index.set i ⟨sid, title, now⟩
  | none => ⟨sid, title, now⟩ :: index

/-- The sorted candidate index of a flush (lines 303-305). -/
def flushSortedIndex (index : List SessionEntry) (sid title : String) (now : Nat) :
    List SessionEntry :=
  sortByUpdatedDesc (flushUpdatedIndex index sid title now)

/-- The sessions evicted by a flush (PromptOptimizer.tsx lines 312-313):
`sorted.slice(MAX_SESSIONS)` when the sorted index exceeds the cap. -/
def flushRemoved (index : List SessionEntry) (sid title : String) (now : Nat) :
    List SessionEntry :=
  if (flushSortedIndex index sid title now).length > MAX_SESSIONS
  then (flushSortedIndex index sid title now).drop MAX_SESSIONS
  else []

/-- The debounced auto-save flush of the current component (the `setTimeout`
body, PromptOptimizer.tsx lines 273-333): write the `chat:<id>` payload,
insert-or-replace the index entry with a fresh `updatedAt`, sort descending,
cap at `MAX_SESSIONS` and purge the evicted sessions' `chat:` and
`coaching:` records (one `removeItem` pair per evicted session), then write
the index.  The second component lists the `localStorage.setItem` keys
written (the durable writes) in order. -/
def saveFlush (genTitle : String → String) (st : StoreState) (sid : String)
    (messages : List ChatMessage) (now : Nat) : StoreState × List String :=
  if messages = [] then (st, [])
  else
    ({ index := (flushSortedIndex st.index sid (flushTitle genTitle messages) now).take
          MAX_SESSIONS
       chats := (flushRemoved st.index sid (flushTitle genTitle messages) now).foldl
          (fun acc s => removeKey acc ("chat:" ++ s.id))
          (setKey st.chats ("chat:" ++ sid) messages)
       coaching := (flushRemoved st.index sid (flushTitle genTitle messages) now).foldl
          (fun acc s => removeKey acc ("coaching:" ++ s.id)) st.coaching },
     ["chat:" ++ sid, "chat_sessions"])

/-- The legacy debounced saving effect (src/unnamed/part_000 lines 129-158):
before writing, the candidate payload is compared with the stored one
(`JSON.stringify(JSON.parse(existingRaw)) === JSON.stringify(nextPayload)`,
modelled as structural equality of the decoded payloads) and the flush
returns without any write when they coincide.  Otherwise it writes the chat
payload and the re-sorted index (title = first user message content or
`"New Optimization"`, cut to 80 characters); there is no capacity cap. -/
def legacySaveFlush (st : StoreState) (sid : String) (messages : List ChatMessage)
    (now : Nat) : StoreState × List String :=
  if lookupKey st.chats ("chat:" ++ sid) = some messages then (st, [])
  else
    let chats1 := setKey st.chats ("chat:" ++ sid) messages
    let base := match messages.find? (fun m => m.role == Role.user) with
      | some m => if m.content = "" then "New Optimization" else m.content
      | none => "New Optimization"
    let title := String.mk (base.data.take 80)
    let sorted := flushSortedIndex st.index sid title now
    ({ index := sorted, chats := chats1, coaching := st.coaching },
     ["chat:" ++ sid, "chat_sessions"])

/-- Whether a parser result is an object carrying a string `optimizedPrompt`
and a list-valued `explanations` — the shape claim C4 asserts for every
result. -/
def hasResultShape (j : Json) : Bool :=
  (match getField j "optimizedPrompt" with | some (.str _) => true | _ => false)
  && (match getField j "explanations" with | some (.arr _) => true | _ => false)

/-!
# Theorems

One theorem per claim (`C1` … `C10`), preceded by helper lemmas.
-/

/-- Claim C3: a capability failing with status 503 on every call is invoked
exactly `maxAttempts = 3` times and yields a terminal failure carrying the
original status and message; a capability failing once with 503 and then
succeeding is invoked exactly twice and its success result is returned. -/
theorem generateWithRetry_503_spec :
    (∀ (cap : Nat → Except JsError GenResponse) (m : String),
      (∀ n, cap n = .error ⟨some 503, some m⟩) → m ≠ "" →
      generateWithRetry cap 3 = (.error ⟨m, 503⟩, 3))
    ∧ (∀ (cap : Nat → Except JsError GenResponse) (r : GenResponse) (m : String),
      cap 1 = .error ⟨some 503, some m⟩ → (∀ n, n ≠ 1 → cap n = .ok r) →
      generateWithRetry cap 3 = (.ok r, 2)) := by
  constructor
  · intro cap m h hm
    simp [generateWithRetry, generateWithRetryGo, h, shouldRetry,
      retriableStatuses, jsStrOr, statusOr500, hm]
  · intro cap r m h1 h2
    have h2' := h2 2 (by decide)
    simp [generateWithRetry, generateWithRetryGo, h1, h2', shouldRetry,
      retriableStatuses]

/-- Witness for C3: both parts applied to concrete capabilities. -/
theorem generateWithRetry_503_spec_witness :
    generateWithRetry (fun _ => .error ⟨some 503, some "overloaded"⟩) 3
      = (.error ⟨"overloaded", 503⟩, 3)
    ∧ generateWithRetry
        (fun n => if n = 1 then .error ⟨some 503, some "busy"⟩ else .ok ⟨some "done"⟩) 3
      = (.ok ⟨some "done"⟩, 2) := by
  refine ⟨generateWithRetry_503_spec.1 _ "overloaded" (fun n => rfl) (by decide),
    generateWithRetry_503_spec.2 _ ⟨some "done"⟩ "busy" rfl (fun n hn => ?_)⟩
  simp [hn]

/-- Claim C9: when an optimize/refinement request ends in an error, the final
message list is exactly the pre-request snapshot — the optimistically
appended user message (present in the optimistic state when not silent) is
reverted and no assistant message is appended. -/
theorem handleOptimize_error_reverts :
    ∀ (messages : List ChatMessage) (content : String) (silent : Bool) (e : String),
      (handleOptimizeRun messages content silent (.error e)).2 = messages
      ∧ (silent = false →
        (handleOptimizeRun messages content silent (.error e)).1
          = messages ++ [{role := .user, content := content}]) := by
  intro messages content silent e
  refine ⟨?_, ?_⟩
  · cases silent <;> rfl
  · intro hs
    subst hs
    rfl

/-- Witness for C9 at a concrete session state and error. -/
theorem handleOptimize_error_reverts_witness :
    (handleOptimizeRun [{role := .user, content := "hi"}] "more" false (.error "Failed")).2
      = [{role := .user, content := "hi"}]
    ∧ (handleOptimizeRun [{role := .user, content := "hi"}] "more" false (.error "Failed")).1
      = [{role := .user, content := "hi"}] ++ [{role := .user, content := "more"}] :=
  ⟨(handleOptimize_error_reverts [{role := .user, content := "hi"}] "more" false "Failed").1,
   (handleOptimize_error_reverts [{role := .user, content := "hi"}] "more" false "Failed").2 rfl⟩

/-- Counterexample to claim C4 as stated: `parseResponse` never raises, but
when the direct decode succeeds the decoded value is returned as-is, so on
input `"{}"` the result is an empty object with neither an
`optimizedPrompt` string nor an `explanations` list. -/
theorem parseResponse_shape_counterexample :
    parseResponse (some "\x7b\x7d") = .obj []
    ∧ hasResultShape (parseResponse (some "\x7b\x7d")) = false :=
  ⟨rfl, rfl⟩

/-- Claim C4 (amended): for every input (absent included) `parseResponse`
returns a value and never raises; the value carries an `optimizedPrompt`
string and an `explanations` list except when a direct or fence-stripped
structured decode succeeds, in which case the decoded value is returned
verbatim, whatever its shape. -/
theorem parseResponse_total_shape :
    ∀ t : Option String,
      hasResultShape (parseResponse t) = true
      ∨ ∃ s v, t = some s
          ∧ (jsonParse s = some v ∨ jsonParse (stripFenced s) = some v)
          ∧ parseResponse t = v := by
  intro t
  match t with
  | none => exact Or.inl rfl
  | some s =>
    by_cases hs : s = ""
    · subst hs
      exact Or.inl rfl
    · cases h1 : jsonParse s with
      | some v =>
        exact Or.inr ⟨s, v, rfl, Or.inl h1, by simp [parseResponse, hs, h1]⟩
      | none =>
        cases h2 : jsonParse (stripFenced s) with
        | some v =>
          exact Or.inr ⟨s, v, rfl, Or.inr h2, by simp [parseResponse, hs, h1, h2]⟩
        | none =>
          left
          simp [parseResponse, hs, h1, h2, hasResultShape, getField]

/-- Claim C5: when both the direct and the fence-stripped decode fail, the
parser falls back to the (fence-stripped, or original when stripping empties
it) text verbatim as `optimizedPrompt` plus the synthetic diagnostic note;
when either decode succeeds, the decoded value is returned with nothing
added. -/
theorem parseResponse_fallback_spec :
    ∀ s : String, s ≠ "" →
      (∀ v, jsonParse s = some v → parseResponse (some s) = v)
      ∧ (∀ v, jsonParse s = none → jsonParse (stripFenced s) = some v →
          parseResponse (some s) = v)
      ∧ (jsonParse s = none → jsonParse (stripFenced s) = none →
          parseResponse (some s)
            = .obj [("optimizedPrompt",
                      .str (if stripFenced s = "" then s else stripFenced s)),
                    ("explanations", .arr [.str unparsedNote])]) := by
  intro s hs
  refine ⟨?_, ?_, ?_⟩
  · intro v h1
    simp [parseResponse, hs, h1]
  · intro v h1 h2
    simp [parseResponse, hs, h1, h2]
  · intro h1 h2
    simp [parseResponse, hs, h1, h2]

/-- Witness for C5: the spec's malformed-response scenario takes the
verbatim-fallback branch, and its fenced-JSON scenario decodes after
stripping with no note added. -/
theorem parseResponse_fallback_spec_witness :
    parseResponse (some "Sure! Here's your prompt: X")
      = .obj [("optimizedPrompt", .str "Sure! Here's your prompt: X"),
              ("explanations", .arr [.str unparsedNote])]
    ∧ parseResponse (some "```json\n\x7b\"optimizedPrompt\":\"X\",\"explanations\":[]\x7d\n```")
      = .obj [("optimizedPrompt", .str "X"), ("explanations", .arr [])] := by
  constructor
  · exact (parseResponse_fallback_spec "Sure! Here's your prompt: X" (by decide)).2.2 rfl rfl
  · exact (parseResponse_fallback_spec _ (by decide)).2.1
      (.obj [("optimizedPrompt", .str "X"), ("explanations", .arr [])]) rfl rfl

/-- The clarify response body is `{questions: ...}` in every branch. -/
theorem serverClarifyBody_shape :
    ∀ t : Option String, ∃ q, serverClarifyBody t = .obj [("questions", q)] := by
  intro t
  cases h1 : jsonParse (effectiveClarifyText t) with
  | some v => exact ⟨questionsOrEmptyList v, by simp [serverClarifyBody, h1]⟩
  | none =>
    cases h2 : jsonParse (strippedClarifyText t) with
    | some v => exact ⟨questionsOrEmptyList v, by simp [serverClarifyBody, h1, h2]⟩
    | none => exact ⟨.arr genericClarifyQuestions, by simp [serverClarifyBody, h1, h2]⟩

/-- Claim C7: for every successful clarify request the question list the
engine acts on has length at most 4 — the cap being the client-side
`slice(0, 4)` applied to the route's (uncapped) clarify body — and when the
decoded response carries a `questions` array it is passed through verbatim,
with no Suggestion Sanitizer applied, before the slice. -/
theorem clarifyQuestions_cap_spec :
    (∀ t : Option String, (engineClarifyQuestions t).length ≤ 4)
    ∧ (∀ (s : String) (v : Json) (qs : List Json), s ≠ "" → jsonParse s = some v →
      getField v "questions" = some (.arr qs) →
      engineClarifyQuestions (some s) = qs.take 4) := by
  constructor
  · intro t
    obtain ⟨q, hq⟩ := serverClarifyBody_shape t
    unfold engineClarifyQuestions
    rw [hq]
    show (clientQuestionSlice (.obj [("questions", q)])).length ≤ 4
    cases q <;> simp [clientQuestionSlice, getField, List.length_take]
  · intro s v qs hs hv hq
    have hse : effectiveClarifyText (some s) = s := by simp [effectiveClarifyText, hs]
    have hbody : serverClarifyBody (some s) = .obj [("questions", .arr qs)] := by
      unfold serverClarifyBody
      rw [hse, hv]
      simp [questionsOrEmptyList, hq, jsTruthy]
    unfold engineClarifyQuestions
    rw [hbody]
    rfl

set_option maxRecDepth 16384 in
/-- Witness for C7: a response with five questions — the third carrying a
`question:` prefix and more than twelve words that the Suggestion Sanitizer
would have rewritten — yields exactly the first four questions verbatim. -/
theorem clarifyQuestions_cap_spec_witness :
    (engineClarifyQuestions (some "\x7b\"questions\":[\"A?\",\"B?\",\"question: what tone and how many words should the final optimized output contain overall today?\",\"D?\",\"E?\"]\x7d")).length ≤ 4
    ∧ engineClarifyQuestions (some "\x7b\"questions\":[\"A?\",\"B?\",\"question: what tone and how many words should the final optimized output contain overall today?\",\"D?\",\"E?\"]\x7d")
      = [.str "A?", .str "B?",
         .str "question: what tone and how many words should the final optimized output contain overall today?",
         .str "D?"] :=
  ⟨clarifyQuestions_cap_spec.1 _,
   clarifyQuestions_cap_spec.2 _
     (.obj [("questions", .arr [.str "A?", .str "B?",
       .str "question: what tone and how many words should the final optimized output contain overall today?",
       .str "D?", .str "E?"])])
     [.str "A?", .str "B?",
      .str "question: what tone and how many words should the final optimized output contain overall today?",
      .str "D?", .str "E?"]
     (by decide) rfl rfl⟩

/-- Claim C10: a clarify response that decodes neither directly nor after
fence-stripping yields a successful body with exactly the two fixed generic
questions, and a decoded response without a `questions` field yields an
empty question list. -/
theorem clarifyFallback_spec :
    ∀ t : Option String,
      (jsonParse (effectiveClarifyText t) = none →
        jsonParse (strippedClarifyText t) = none →
        serverClarifyBody t = .obj [("questions", .arr genericClarifyQuestions)])
      ∧ (∀ v, jsonParse (effectiveClarifyText t) = some v →
        getField v "questions" = none →
        serverClarifyBody t = .obj [("questions", .arr [])]) := by
  intro t
  constructor
  · intro h1 h2
    simp [serverClarifyBody, h1, h2]
  · intro v h1 h2
    simp [serverClarifyBody, h1, questionsOrEmptyList, h2]

/-- Witness for C10: prose falls back to the two generic questions; a decoded
object without `questions` yields the empty list. -/
theorem clarifyFallback_spec_witness :
    serverClarifyBody (some "The user should clarify their goals.")
      = .obj [("questions", .arr genericClarifyQuestions)]
    ∧ serverClarifyBody (some "\x7b\"other\":true\x7d")
      = .obj [("questions", .arr [])] :=
  ⟨(clarifyFallback_spec (some "The user should clarify their goals.")).1 rfl rfl,
   (clarifyFallback_spec (some "\x7b\"other\":true\x7d")).2 (.obj [("other", .bool true)]) rfl rfl⟩

/-- Every failure of the validation block carries HTTP status 400. -/
theorem routeValidate_status_400 :
    ∀ (b : ApiRequestBody) (e : ApiError), routeValidate b = .error e → e.status = 400 := by
  intro b e h
  unfold routeValidate modelCheck at h
  split_ifs at h <;> injection h with h2 <;> subst h2 <;> rfl

/-- The validation block fails exactly under `validationFails`. -/
theorem routeValidate_error_iff :
    ∀ b : ApiRequestBody, (∃ e, routeValidate b = .error e) ↔ validationFails b := by
  intro b
  unfold routeValidate modelCheck validationFails
  split_ifs <;> (simp_all; try tauto)

/-- The retry loop always calls the capability at least once per remaining
attempt budget. -/
theorem le_generateWithRetryGo_calls :
    ∀ (cap : Nat → Except JsError GenResponse) (retries fuel attempt calls : Nat),
      calls + 1 ≤ (generateWithRetryGo cap retries (fuel + 1) attempt calls).2 := by
  intro cap retries fuel
  induction fuel with
  | zero =>
    intro attempt calls
    simp only [generateWithRetryGo]
    cases h : cap attempt with
    | ok r => simp
    | error e =>
      simp only []
      split
      · simp [generateWithRetryGo]
      · simp
  | succ n ih =>
    intro attempt calls
    simp only [generateWithRetryGo]
    cases h : cap attempt with
    | ok r => simp
    | error e =>
      simp only []
      split
      · exact le_trans (Nat.le_succ _) (ih (attempt + 1) (calls + 1))
      · simp

/-- A request that passes validation always reaches the capability. -/
theorem one_le_generateWithRetry_calls :
    ∀ cap : Nat → Except JsError GenResponse, 1 ≤ (generateWithRetry cap 3).2 :=
  fun cap => le_generateWithRetryGo_calls cap 3 2 1 0

/-- Counterexample to claim C8 as stated: a request with the model field
absent satisfies the claim's failure condition ("model identifier is
missing"), yet validation succeeds — the destructuring default
`gemini-2.0-flash` fills the gap — and the capability is then called once,
so no client-error failure occurs. -/
theorem routeValidate_counterexample :
    claimedValidationFailure {apiKey := some "k", prompt := some "write a blog post"} = true
    ∧ routeValidate {apiKey := some "k", prompt := some "write a blog post"}
      = .ok "gemini-2.0-flash"
    ∧ (postOutcome {apiKey := some "k", prompt := some "write a blog post"}
        (fun _ => .ok ⟨some "\x7b\x7d"⟩)).2 = 1 :=
  ⟨rfl, rfl, rfl⟩

/-- Claim C8 (amended): the request fails with a client-error classification
(HTTP 400, zero capability calls, hence no retry) if and only if validation
fails — where a missing model identifier is first replaced by the default
`gemini-2.0-flash` and an unrecognized task value is treated as optimize:
the (defaulted) model must be non-empty and, after trimming, in the
supported set, the api key present, the clarify task must carry
`selectedSuggestion` and `prompt`, the refine task a non-empty `answers`
list, and the optimize task a `prompt` or a
(`previousPrompt`, `refinementInstruction`) pair. -/
theorem routeValidate_clientError_iff :
    ∀ (b : ApiRequestBody) (cap : Nat → Except JsError GenResponse),
      (∃ e, postOutcome b cap = (.error e, 0) ∧ e.status = 400) ↔ validationFails b := by
  intro b cap
  unfold postOutcome
  cases h : routeValidate b with
  | error e =>
    have h400 := routeValidate_status_400 b e h
    constructor
    · intro _
      exact (routeValidate_error_iff b).1 ⟨e, h⟩
    · intro _
      exact ⟨e, rfl, h400⟩
  | ok s =>
    constructor
    · rintro ⟨e', he, -⟩
      have he' : generateWithRetry cap 3 = (.error e', 0) := he
      have h0 : (generateWithRetry cap 3).2 = 0 := by rw [he']
      have h1 := one_le_generateWithRetry_calls cap
      omega
    · intro hv
      obtain ⟨e, he⟩ := (routeValidate_error_iff b).2 hv
      rw [h] at he
      exact absurd he (by simp)

/-- Witness for the amended C8 at a concrete request with a missing api key:
the pipeline fails with a 400 client error and zero capability calls. -/
theorem routeValidate_clientError_iff_witness :
    ∃ e, postOutcome {model := some "gemini-2.5-flash", prompt := some "p"}
        (fun _ => .ok ⟨some "\x7b\x7d"⟩) = (.error e, 0) ∧ e.status = 400 :=
  (routeValidate_clientError_iff {model := some "gemini-2.5-flash", prompt := some "p"}
    (fun _ => .ok ⟨some "\x7b\x7d"⟩)).mpr (Or.inr (Or.inl rfl))

/-- Counterexample to claim C1 as stated: flushing the same session twice
with the same (unchanged) message list performs the durable writes again on
the second flush — the current auto-save effect has no byte-equality check —
and bumps the index entry's `updatedAt` from 1 to 2. -/
theorem saveFlush_idempotence_counterexample :
    (saveFlush (fun s => s)
        ((saveFlush (fun s => s) ⟨[], [], []⟩ "a" [{role := .user, content := "hello"}] 1).1)
        "a" [{role := .user, content := "hello"}] 2).2
      = ["chat:a", "chat_sessions"]
    ∧ (saveFlush (fun s => s)
        ((saveFlush (fun s => s) ⟨[], [], []⟩ "a" [{role := .user, content := "hello"}] 1).1)
        "a" [{role := .user, content := "hello"}] 2).1.index
      = [⟨"a", "hello", 2⟩] :=
  ⟨rfl, rfl⟩

/-- Claim C1 (amended): the byte-equality skip lives in the legacy debounced
saving effect (src/unnamed/part_000): when the stored `chat:<id>` payload
equals the candidate payload, the legacy flush performs no durable write and
leaves the store — `updatedAt` included — untouched.  The current
component's auto-save flush (PromptOptimizer.tsx lines 268-338) writes
unconditionally and bumps `updatedAt` on every flush. -/
theorem legacySaveFlush_skip :
    ∀ (st : StoreState) (sid : String) (messages : List ChatMessage) (now : Nat),
      lookupKey st.chats ("chat:" ++ sid) = some messages →
      legacySaveFlush st sid messages now = (st, []) := by
  intro st sid messages now h
  unfold legacySaveFlush
  rw [if_pos h]

/-- Witness for the amended C1 at a concrete store whose stored payload
matches the candidate. -/
theorem legacySaveFlush_skip_witness :
    legacySaveFlush
        ⟨[⟨"a", "hello", 1⟩], [("chat:a", [{role := .user, content := "hello"}])], []⟩
        "a" [{role := .user, content := "hello"}] 2
      = (⟨[⟨"a", "hello", 1⟩], [("chat:a", [{role := .user, content := "hello"}])], []⟩, []) :=
  legacySaveFlush_skip _ "a" _ 2 rfl

/-- Inserting preserves length plus one. -/
theorem length_insertDesc :
    ∀ (e : SessionEntry) (l : List SessionEntry), (insertDesc e l).length = l.length + 1 := by
  intro e l
  induction l with
  | nil => rfl
  | cons x rest ih =>
    unfold insertDesc
    split <;> simp [ih]

/-- The stable sort preserves length. -/
theorem length_sortByUpdatedDesc :
    ∀ l : List SessionEntry, (sortByUpdatedDesc l).length = l.length := by
  intro l
  induction l with
  | nil => rfl
  | cons x rest ih => simp [sortByUpdatedDesc, length_insertDesc, ih]

/-- Removing a key makes its lookup miss. -/
theorem lookupKey_removeKey_self {α : Type} :
    ∀ (l : List (String × α)) (k : String), lookupKey (removeKey l k) k = none := by
  intro l k
  induction l with
  | nil => rfl
  | cons p rest ih =>
    by_cases hp : p.1 = k
    · simp [removeKey, List.filter_cons, hp]
      exact ih
    · simp [removeKey, lookupKey, List.filter_cons, List.find?, hp]

/-- Removing some key preserves a missing lookup. -/
theorem lookupKey_removeKey_of_none {α : Type} :
    ∀ (l : List (String × α)) (k k' : String),
      lookupKey l k = none → lookupKey (removeKey l k') k = none := by
  intro l k k'
  induction l with
  | nil => intro _; rfl
  | cons p rest ih =>
    intro h
    have hp : (p.1 == k) = false := by
      by_contra hc
      simp [lookupKey, List.find?, eq_true_of_ne_false hc] at h
    have hrest : lookupKey rest k = none := by
      simpa [lookupKey, List.find?, hp] using h
    by_cases hq : p.1 = k'
    · simpa [removeKey, List.filter_cons, hq] using ih hrest
    · simpa [removeKey, lookupKey, List.filter_cons, List.find?, hp, hq] using ih hrest

/-- A fold of removals preserves a missing lookup. -/
theorem lookupKey_foldl_remove_of_none {α : Type} :
    ∀ (rs : List SessionEntry) (l : List (String × α)) (f : SessionEntry → String)
      (k : String), lookupKey l k = none →
      lookupKey (rs.foldl (fun acc s => removeKey acc (f s)) l) k = none := by
  intro rs
  induction rs with
  | nil => intro l f k h; exact h
  | cons r rest ih =>
    intro l f k h
    exact ih _ f k (lookupKey_removeKey_of_none l k (f r) h)

/-- After folding the removals for `rs`, every member's key misses. -/
theorem lookupKey_foldl_remove_mem {α : Type} :
    ∀ (rs : List SessionEntry) (l : List (String × α)) (f : SessionEntry → String)
      (s : SessionEntry), s ∈ rs →
      lookupKey (rs.foldl (fun acc x => removeKey acc (f x)) l) (f s) = none := by
  intro rs
  induction rs with
  | nil => intro l f s h; cases h
  | cons r rest ih =>
    intro l f s h
    rcases List.mem_cons.mp h with h1 | h1
    · subst h1
      exact lookupKey_foldl_remove_of_none rest _ f (f s) (lookupKey_removeKey_self l (f s))
    · exact ih _ f s h1

/-- Claim C2: after any flush that actually persists (non-empty message
list), the Session Index holds at most `MAX_SESSIONS = 50` entries, and
every session evicted by the cap — the entries of the sorted candidate index
beyond position 50 — has both its `chat:<id>` message-log record and its
`coaching:<id>` record removed from the store, leaving no orphaned record
for any evicted session.  The pre-flush store is arbitrary, so the invariant
holds after every flush of every flush sequence. -/
theorem saveFlush_eviction_invariant :
    ∀ (genTitle : String → String) (st : StoreState) (sid : String)
      (messages : List ChatMessage) (now : Nat), messages ≠ [] →
      ((saveFlush genTitle st sid messages now).1.index.length ≤ MAX_SESSIONS)
      ∧ ∀ s ∈ (flushSortedIndex st.index sid (flushTitle genTitle messages) now).drop
          MAX_SESSIONS,
          lookupKey (saveFlush genTitle st sid messages now).1.chats ("chat:" ++ s.id) = none
          ∧ lookupKey (saveFlush genTitle st sid messages now).1.coaching
              ("coaching:" ++ s.id) = none := by
  intro genTitle st sid messages now hm
  unfold saveFlush
  rw [if_neg hm]
  constructor
  · simp [List.length_take]
  · intro s hs
    by_cases hlen :
        (flushSortedIndex st.index sid (flushTitle genTitle messages) now).length
          > MAX_SESSIONS
    · have hrem : flushRemoved st.index sid (flushTitle genTitle messages) now
          = (flushSortedIndex st.index sid (flushTitle genTitle messages) now).drop
              MAX_SESSIONS := by
        simp [flushRemoved, hlen]
      constructor
      · show lookupKey ((flushRemoved _ _ _ _).foldl _ _) _ = none
        rw [hrem]
        exact lookupKey_foldl_remove_mem _ _ _ s hs
      · show lookupKey ((flushRemoved _ _ _ _).foldl _ _) _ = none
        rw [hrem]
        exact lookupKey_foldl_remove_mem _ _ _ s hs
    · exfalso
      rw [List.drop_eq_nil_of_le (Nat.le_of_not_lt hlen)] at hs
      cases hs

/-- Witness for C2 at a concrete flush of a fresh store. -/
theorem saveFlush_eviction_invariant_witness :
    ((saveFlush (fun s => s) ⟨[], [], []⟩ "a"
        [{role := .user, content := "hi"}] 1).1.index.length ≤ MAX_SESSIONS)
    ∧ ∀ s ∈ (flushSortedIndex ([] : List SessionEntry) "a"
        (flushTitle (fun s => s) [{role := .user, content := "hi"}]) 1).drop MAX_SESSIONS,
        lookupKey (saveFlush (fun s => s) ⟨[], [], []⟩ "a"
          [{role := .user, content := "hi"}] 1).1.chats ("chat:" ++ s.id) = none
        ∧ lookupKey (saveFlush (fun s => s) ⟨[], [], []⟩ "a"
            [{role := .user, content := "hi"}] 1).1.coaching ("coaching:" ++ s.id) = none :=
  saveFlush_eviction_invariant (fun s => s) ⟨[], [], []⟩ "a"
    [{role := .user, content := "hi"}] 1 (by simp)

/-- Collapsing whitespace never empties a non-empty string. -/
theorem collapseWs_ne_nil :
    ∀ cs : List Char, cs ≠ [] → collapseWs cs ≠ [] := by
  intro cs h
  cases cs with
  | nil => exact absurd rfl h
  | cons c rest =>
    unfold collapseWs collapseWsGo
    split <;> simp

/-- `split(" ")` never returns an empty list. -/
theorem splitOnSpace_ne_nil : ∀ cs : List Char, splitOnSpace cs ≠ [] := by
  intro cs
  cases cs with
  | nil => simp [splitOnSpace]
  | cons c rest =>
    simp only [splitOnSpace]
    split <;> simp

/-- The pieces of `split(" ")` contain no space. -/
theorem space_notMem_splitOnSpace :
    ∀ (cs : List Char) (w : List Char), w ∈ splitOnSpace cs → ' ' ∉ w := by
  intro cs
  induction cs with
  | nil =>
    intro w hw
    simp [splitOnSpace] at hw
    subst hw
    simp
  | cons c rest ih =>
    intro w hw
    obtain ⟨a, as, he⟩ := List.exists_cons_of_ne_nil (splitOnSpace_ne_nil rest)
    simp only [splitOnSpace, he] at hw
    by_cases hc : c = ' '
    · rw [if_pos hc] at hw
      rcases List.mem_cons.mp hw with h1 | h1
      · subst h1; simp
      · exact ih w (he ▸ h1)
    · rw [if_neg hc] at hw
      rcases List.mem_cons.mp hw with h1 | h1
      · subst h1
        intro hsp
        rcases List.mem_cons.mp hsp with h2 | h2
        · exact hc h2.symm
        · exact ih a (he ▸ List.mem_cons_self a as) h2
      · exact ih w (he ▸ List.mem_cons_of_mem a h1)

/-- `split(" ")` of a space-free string is that string alone. -/
theorem splitOnSpace_no_space :
    ∀ cs : List Char, ' ' ∉ cs → splitOnSpace cs = [cs] := by
  intro cs
  induction cs with
  | nil => intro _; rfl
  | cons c rest ih =>
    intro h
    have hc : c ≠ ' ' := fun hc => h (hc ▸ List.mem_cons_self c rest)
    have hrest : ' ' ∉ rest := fun hm => h (List.mem_cons_of_mem c hm)
    simp only [splitOnSpace, ih hrest]
    rw [if_neg hc]
    rfl

/-- `split(" ")` after appending a space-free piece and a space. -/
theorem splitOnSpace_append_cons :
    ∀ (w t : List Char), ' ' ∉ w →
      splitOnSpace (w ++ ' ' :: t) = w :: splitOnSpace t := by
  intro w
  induction w with
  | nil =>
    intro t _
    simp [splitOnSpace]
  | cons c w' ih =>
    intro t h
    have hc : c ≠ ' ' := fun hc => h (hc ▸ List.mem_cons_self c w')
    have hw' : ' ' ∉ w' := fun hm => h (List.mem_cons_of_mem c hm)
    rw [List.cons_append]
    simp only [splitOnSpace]
    rw [ih t hw', if_neg hc]
    rfl

/-- `split(" ")` inverts `join(" ")` on space-free pieces. -/
theorem splitOnSpace_joinSpace :
    ∀ l : List (List Char), l ≠ [] → (∀ w ∈ l, ' ' ∉ w) →
      splitOnSpace (joinSpace l) = l := by
  intro l
  induction l with
  | nil => intro h _; exact absurd rfl h
  | cons w rest ih =>
    intro _ h
    cases rest with
    | nil =>
      show splitOnSpace (joinSpace [w]) = [w]
      exact splitOnSpace_no_space w (h w (List.mem_cons_self w []))
    | cons w2 rest2 =>
      show splitOnSpace (w ++ ' ' :: joinSpace (w2 :: rest2)) = w :: w2 :: rest2
      rw [splitOnSpace_append_cons w _ (h w (List.mem_cons_self w _))]
      rw [ih (by simp) (fun u hu => h u (List.mem_cons_of_mem w hu))]

/-- `join(" ")` of at least two pieces is non-empty (it contains the space). -/
theorem joinSpace_ne_nil :
    ∀ l : List (List Char), 2 ≤ l.length → joinSpace l ≠ [] := by
  intro l h
  match l, h with
  | w1 :: w2 :: rest, _ => simp [joinSpace]

/-- Every accepted suggestion is non-empty and at most 12 words long. -/
theorem cleanCandidate_good :
    ∀ (s : String) (t : String), cleanCandidate s = some t →
      t ≠ "" ∧ (splitOnSpace t.data).length ≤ 12 := by
  intro s t h
  simp only [cleanCandidate] at h
  generalize jsTrimChars (stripAskLead (stripQuoteRuns (jsTrimChars s.data))) = t3 at h
  by_cases h3 : t3 = []
  · rw [if_pos h3] at h
    cases h
  · rw [if_neg h3] at h
    injection h with h'
    subst h'
    by_cases hw : (splitOnSpace (collapseWs t3)).length > 12
    · rw [if_pos hw]
      have htake2 : 2 ≤ ((splitOnSpace (collapseWs t3)).take 12).length := by
        simp [List.length_take]
        omega
      constructor
      · intro he
        exact joinSpace_ne_nil _ htake2 (congrArg String.data he)
      · show (splitOnSpace (joinSpace ((splitOnSpace (collapseWs t3)).take 12))).length ≤ 12
        rw [splitOnSpace_joinSpace _ (List.ne_nil_of_length_pos (by omega))
          (fun u hu =>
            space_notMem_splitOnSpace (collapseWs t3) u (List.take_subset 12 _ hu))]
        simp [List.length_take]
    · rw [if_neg hw]
      constructor
      · intro he
        exact collapseWs_ne_nil t3 h3 (congrArg String.data he)
      · show (splitOnSpace (collapseWs t3)).length ≤ 12
        omega

set_option maxHeartbeats 1000000 in
/-- Unfolding equation for the sanitizer loop on a string candidate. -/
theorem sanitizeGo_cons_str :
    ∀ (sv : String) (rest : List Json) (seen cleaned : List String),
      sanitizeGo (Json.str sv :: rest) seen cleaned =
        match cleanCandidate sv with
        | none => sanitizeGo rest seen cleaned
        | some t =>
          if lowerKey t ∈ seen then sanitizeGo rest seen cleaned
          else if (cleaned ++ [t]).length ≥ 3 then cleaned ++ [t]
          else sanitizeGo rest (lowerKey t :: seen) (cleaned ++ [t]) :=
  fun _ _ _ _ => rfl

/-- `sanitizeGo_cons_str` when the cleanup drops the candidate. -/
theorem sanitizeGo_cons_str_none :
    ∀ (sv : String) (rest : List Json) (seen cleaned : List String),
      cleanCandidate sv = none →
      sanitizeGo (Json.str sv :: rest) seen cleaned = sanitizeGo rest seen cleaned := by
  intro sv rest seen cleaned h
  rw [sanitizeGo_cons_str, h]

/-- `sanitizeGo_cons_str` when the cleanup keeps the candidate. -/
theorem sanitizeGo_cons_str_some :
    ∀ (sv : String) (rest : List Json) (seen cleaned : List String) (t : String),
      cleanCandidate sv = some t →
      sanitizeGo (Json.str sv :: rest) seen cleaned =
        if lowerKey t ∈ seen then sanitizeGo rest seen cleaned
        else if (cleaned ++ [t]).length ≥ 3 then cleaned ++ [t]
        else sanitizeGo rest (lowerKey t :: seen) (cleaned ++ [t]) := by
  intro sv rest seen cleaned t h
  rw [sanitizeGo_cons_str, h]

/-- The loop invariant of the Suggestion Sanitizer: starting from an
accepted prefix of fewer than three good, pairwise-distinct entries whose
keys are all recorded in `seen`, the loop returns at most 3 entries, all
good, pairwise case-insensitively distinct, and extends the prefix by a
subsequence of the successful cleanups (so each entry is the cleanup of an
input candidate, in input order, first occurrence winning). -/
theorem sanitizeGo_spec :
    ∀ (xs : List Json) (seen cleaned : List String),
      cleaned.length < 3 →
      (∀ t ∈ cleaned, lowerKey t ∈ seen) →
      cleaned.Pairwise (fun a b => lowerKey a ≠ lowerKey b) →
      (∀ t ∈ cleaned, t ≠ "" ∧ (splitOnSpace t.data).length ≤ 12) →
      (sanitizeGo xs seen cleaned).length ≤ 3
      ∧ (∀ t ∈ sanitizeGo xs seen cleaned, t ≠ "" ∧ (splitOnSpace t.data).length ≤ 12)
      ∧ (sanitizeGo xs seen cleaned).Pairwise (fun a b => lowerKey a ≠ lowerKey b)
      ∧ ∃ l, l.Sublist (suggestionCleanups xs)
          ∧ sanitizeGo xs seen cleaned = cleaned ++ l := by
  intro xs
  induction xs with
  | nil =>
    intro seen cleaned h1 h2 h3 h4
    exact ⟨by simpa [sanitizeGo] using Nat.le_of_lt h1, by simpa [sanitizeGo] using h4,
      by simpa [sanitizeGo] using h3, [], by simp [suggestionCleanups],
      by simp [sanitizeGo]⟩
  | cons x rest ih =>
    intro seen cleaned h1 h2 h3 h4
    cases x with
    | null => simpa [sanitizeGo, suggestionCleanups] using ih seen cleaned h1 h2 h3 h4
    | bool b => simpa [sanitizeGo, suggestionCleanups] using ih seen cleaned h1 h2 h3 h4
    | num nv => simpa [sanitizeGo, suggestionCleanups] using ih seen cleaned h1 h2 h3 h4
    | arr av => simpa [sanitizeGo, suggestionCleanups] using ih seen cleaned h1 h2 h3 h4
    | obj ov => simpa [sanitizeGo, suggestionCleanups] using ih seen cleaned h1 h2 h3 h4
    | str sv =>
      cases hc : cleanCandidate sv with
      | none =>
        have hres : sanitizeGo (Json.str sv :: rest) seen cleaned
            = sanitizeGo rest seen cleaned := sanitizeGo_cons_str_none sv rest seen cleaned hc
        have hsug : suggestionCleanups (Json.str sv :: rest) = suggestionCleanups rest := by
          simp [suggestionCleanups, hc]
        rw [hres, hsug]
        exact ih seen cleaned h1 h2 h3 h4
      | some t =>
        have hsug : suggestionCleanups (Json.str sv :: rest)
            = t :: suggestionCleanups rest := by simp [suggestionCleanups, hc]
        have hgood := cleanCandidate_good sv t hc
        by_cases hseen : lowerKey t ∈ seen
        · have hres : sanitizeGo (Json.str sv :: rest) seen cleaned
              = sanitizeGo rest seen cleaned := by
            rw [sanitizeGo_cons_str_some sv rest seen cleaned t hc, if_pos hseen]
          rw [hres, hsug]
          obtain ⟨a1, a2, a3, l, hl, he⟩ := ih seen cleaned h1 h2 h3 h4
          exact ⟨a1, a2, a3, l, hl.cons t, he⟩
        · have hpair' : (cleaned ++ [t]).Pairwise (fun a b => lowerKey a ≠ lowerKey b) := by
            refine List.pairwise_append.mpr ⟨h3, by simp, ?_⟩
            intro a ha b hb
            have hb' : b = t := by simpa using hb
            subst hb'
            intro heq
            exact hseen (heq ▸ h2 a ha)
          have hgoods' : ∀ u ∈ cleaned ++ [t],
              u ≠ "" ∧ (splitOnSpace u.data).length ≤ 12 := by
            intro u hu
            rcases List.mem_append.mp hu with h5 | h5
            · exact h4 u h5
            · have : u = t := by simpa using h5
              subst this
              exact hgood
          by_cases hlen3 : (cleaned ++ [t]).length ≥ 3
          · have hres : sanitizeGo (Json.str sv :: rest) seen cleaned
                = cleaned ++ [t] := by
              rw [sanitizeGo_cons_str_some sv rest seen cleaned t hc, if_neg hseen,
                if_pos hlen3]
            rw [hres, hsug]
            refine ⟨?_, hgoods', hpair', [t], ?_, rfl⟩
            · simp only [List.length_append, List.length_singleton]
              omega
            · exact (List.nil_sublist _).cons₂ t
          · have hres : sanitizeGo (Json.str sv :: rest) seen cleaned
                = sanitizeGo rest (lowerKey t :: seen) (cleaned ++ [t]) := by
              rw [sanitizeGo_cons_str_some sv rest seen cleaned t hc, if_neg hseen,
                if_neg hlen3]
            rw [hres, hsug]
            have p1 : (cleaned ++ [t]).length < 3 := by
              simp at hlen3 ⊢
              omega
            have p2 : ∀ u ∈ cleaned ++ [t], lowerKey u ∈ lowerKey t :: seen := by
              intro u hu
              rcases List.mem_append.mp hu with h5 | h5
              · exact List.mem_cons_of_mem _ (h2 u h5)
              · have : u = t := by simpa using h5
                subst this
                exact List.mem_cons_self _ _
            obtain ⟨a1, a2, a3, l, hl, he⟩ :=
              ih (lowerKey t :: seen) (cleaned ++ [t]) p1 p2 hpair' hgoods'
            refine ⟨a1, a2, a3, t :: l, hl.cons₂ t, ?_⟩
            rw [he]
            simp

/-- Claim C6: for every input list (non-string members included), the
Suggestion Sanitizer returns at most 3 entries, every entry is a non-empty
string of at most 12 space-delimited words, the entries are pairwise
distinct under case-insensitive comparison, and the output is a subsequence
of the successful per-candidate cleanups in input order (first occurrence of
a duplicate key wins; non-string or empty-after-cleanup candidates are
dropped silently). -/
theorem sanitizeSuggestions_spec :
    ∀ xs : List Json,
      (sanitizeSuggestions (some (.arr xs))).length ≤ 3
      ∧ (∀ t ∈ sanitizeSuggestions (some (.arr xs)),
          t ≠ "" ∧ (splitOnSpace t.data).length ≤ 12)
      ∧ (sanitizeSuggestions (some (.arr xs))).Pairwise
          (fun a b => lowerKey a ≠ lowerKey b)
      ∧ (sanitizeSuggestions (some (.arr xs))).Sublist (suggestionCleanups xs) := by
  intro xs
  obtain ⟨a1, a2, a3, l, hl, he⟩ :=
    sanitizeGo_spec xs [] [] (by simp) (by simp) (by simp) (by simp)
  have hs : sanitizeSuggestions (some (.arr xs)) = sanitizeGo xs [] [] := rfl
  rw [hs]
  refine ⟨a1, a2, a3, ?_⟩
  rw [he]
  simpa using hl

/-- Witness for C6 at a concrete candidate list exercising quoting,
prefix-stripping, case-insensitive de-duplication, a non-string member and
the 3-entry cap. -/
theorem sanitizeSuggestions_spec_witness :
    (sanitizeSuggestions (some (.arr
        [.str "  Ask the user: Add metrics ", .str "\"add METRICS\"", .num "5",
         .str "Quantify  benefits", .str "   ", .str "Specify timeline",
         .str "Add tone"]))).length ≤ 3
    ∧ ("Add metrics" ≠ "" ∧ (splitOnSpace ("Add metrics" : String).data).length ≤ 12)
    ∧ (sanitizeSuggestions (some (.arr
        [.str "  Ask the user: Add metrics ", .str "\"add METRICS\"", .num "5",
         .str "Quantify  benefits", .str "   ", .str "Specify timeline",
         .str "Add tone"]))).Pairwise (fun a b => lowerKey a ≠ lowerKey b) := by
  refine ⟨(sanitizeSuggestions_spec _).1, ?_, (sanitizeSuggestions_spec _).2.2.1⟩
  exact (sanitizeSuggestions_spec
    [.str "  Ask the user: Add metrics ", .str "\"add METRICS\"", .num "5",
     .str "Quantify  benefits", .str "   ", .str "Specify timeline",
     .str "Add tone"]).2.1 "Add metrics" (by decide)

/-!
# Concrete evaluations

Anonymous sanity checks: the embedded functions evaluated on concrete
inputs, matching hand-traced runs of the source.
-/

example : jsonParse "\x7b\x7d" = some (.obj []) := rfl

example : jsonParse "  null " = some .null := rfl

example : jsonParse "[1, \"a\"]" = some (.arr [.num "1", .str "a"]) := rfl

example : jsonParse "\x7b\"a\": [true, false], \"b\": \"x\"\x7d"
    = some (.obj [("a", .arr [.bool true, .bool false]), ("b", .str "x")]) := rfl

example : jsonParse "Sure" = none := rfl

example : jsonParse "" = none := rfl

example : jsonParse "\x7b\"a\":1,\x7d" = none := rfl

example : jsonParse "-12.5e3" = some (.num "-12.5e3") := rfl

example : jsonParse "01" = none := rfl

example : jsonParse "\"a\\nb\"" = some (.str "a\nb") := rfl

example : stripFenced "```json\n\x7b\"a\":1\x7d\n```" = "\x7b\"a\":1\x7d" := rfl

example : stripFenced "```\nhello\n```" = "hello" := rfl

example : parseResponse (some "\x7b\"optimizedPrompt\":\"X\",\"explanations\":[]\x7d")
    = .obj [("optimizedPrompt", .str "X"), ("explanations", .arr [])] := rfl

example : parseResponse (some "```json\n\x7b\"optimizedPrompt\":\"X\",\"explanations\":[]\x7d\n```")
    = .obj [("optimizedPrompt", .str "X"), ("explanations", .arr [])] := rfl

example : parseResponse (some "Sure! Here's your prompt: X")
    = .obj [("optimizedPrompt", .str "Sure! Here's your prompt: X"),
            ("explanations", .arr [.str unparsedNote])] := rfl

example : parseResponse (some "```") -- stripped text is empty, original kept
    = .obj [("optimizedPrompt", .str "```"),
            ("explanations", .arr [.str unparsedNote])] := rfl

example : sanitizeSuggestions none = [] := rfl

example : sanitizeSuggestions (some (.str "x")) = [] := rfl

example :
    sanitizeSuggestions (some (.arr
      [.str "  Ask the user: Add metrics ", .str "\"add METRICS\"", .num "5",
       .str "Quantify  benefits", .str "   ", .str "Specify timeline", .str "Add tone"]))
    = ["Add metrics", "Quantify benefits", "Specify timeline"] := rfl

example :
    sanitizeSuggestions (some (.arr
      [.str "one two three four five six seven eight nine ten eleven twelve thirteen"]))
    = ["one two three four five six seven eight nine ten eleven twelve"] := rfl

example :
    generateWithRetry (fun _ => .error ⟨some 503, some "overloaded"⟩) 3
      = (.error ⟨"overloaded", 503⟩, 3) := rfl

example : -- non-retriable status fails immediately
    generateWithRetry (fun _ => .error ⟨some 404, some "not found"⟩) 3
      = (.error ⟨"not found", 404⟩, 1) := rfl

example : -- missing status means no retry and a 500 fallback
    generateWithRetry (fun _ => .error ⟨none, none⟩) 3
      = (.error ⟨"Model generation failed.", 500⟩, 1) := rfl

example : routeValidate {model := some "gemini-9.9-ultra", apiKey := some "k", prompt := some "p"}
    = .error ⟨unsupportedModelMessage, 400⟩ := rfl

example : routeValidate {model := some " gemini-2.5-flash ", apiKey := some "k", prompt := some "p"}
    = .ok "gemini-2.5-flash" := rfl

example : -- an absent model falls back to the default and passes validation
    routeValidate {apiKey := some "k", prompt := some "write a blog post"}
    = .ok "gemini-2.0-flash" := rfl

example : routeValidate {model := some "gemini-2.5-flash", apiKey := some "k", task := some "clarify", prompt := some "p"}
    = .error ⟨"Missing required parameter: 'selectedSuggestion' is required for the clarify task. Please provide a suggestion to clarify.", 400⟩ := rfl

example : routeValidate {model := some "gemini-2.5-flash", apiKey := some "k", task := some "refine", answers := some []}
    = .error ⟨"Missing answers for refine task.", 400⟩ := rfl

example : serverClarifyBody (some "\x7b\"questions\":[\"A?\",\"B?\"]\x7d")
    = .obj [("questions", .arr [.str "A?", .str "B?"])] := rfl

example : serverClarifyBody (some "no json here")
    = .obj [("questions", .arr genericClarifyQuestions)] := rfl

example : serverClarifyBody none = .obj [("questions", .arr [])] := rfl

example : engineClarifyQuestions (some "\x7b\"questions\":[\"A?\",\"B?\",\"C?\",\"D?\",\"E?\"]\x7d")
    = [.str "A?", .str "B?", .str "C?", .str "D?"] := rfl

example :
    saveFlush (fun s => s) ⟨[], [], []⟩ "a" [{role := .user, content := "hello"}] 1
      = (⟨[⟨"a", "hello", 1⟩], [("chat:a", [{role := .user, content := "hello"}])], []⟩,
         ["chat:a", "chat_sessions"]) := rfl

example : -- the legacy flush skips a byte-identical payload entirely
    legacySaveFlush ⟨[⟨"a", "hello", 1⟩], [("chat:a", [{role := .user, content := "hello"}])], []⟩
      "a" [{role := .user, content := "hello"}] 2
      = (⟨[⟨"a", "hello", 1⟩], [("chat:a", [{role := .user, content := "hello"}])], []⟩, []) := rfl

end PromptOptimizer
